import Mathlib

/-!
Shallow embedding of the resolution pipeline in `src/spotifyDownloader.js`
(spotify-podcast-downloader).  Network calls, the filesystem and the external
download tool are abstracted into explicit inputs; every pure computation
(splitting, escaping, filter construction, deduplication, outcome selection)
is translated directly from the JavaScript source.
-/

/-! ### Episode matcher: splitting and escaping (lines 174-202 of the source) -/

/-- JS separator class `[\s\-:,]` from line 197 (`\s` modelled as ASCII
whitespace, which covers every input that occurs in titles here). -/
def isSepChar (c : Char) : Bool :=
  c.isWhitespace || c = '-' || c = ':' || c = ','

/-- JS `String.prototype.split` on the regex `[\s\-:,]+`: maximal runs of
separator characters delimit the fragments; a leading or trailing run
contributes an empty fragment, as in JavaScript.  The flag records whether the
previous character belonged to a separator run. -/
def splitSepsAux : List Char → Bool → List Char → List (List Char)
  | [], _, acc => [acc.reverse]
  | c :: rest, inSep, acc =>
    if isSepChar c then
      if inSep then splitSepsAux rest true acc
      else acc.reverse :: splitSepsAux rest true []
    else splitSepsAux rest false (c :: acc)

/-- The fragment list of a title: line 197 `title.split(/[\s\-:,]+/)`. -/
def splitFrags (title : String) : List (List Char) :=
  splitSepsAux title.data false []

/-- Line 198: `.filter(word => word.length > 2)`. -/
def survivors (title : String) : List (List Char) :=
  (splitFrags title).filter (fun w => w.length > 2)

/-- The character class `[[\].*^$()+?{|\\]` of lines 177 and 199, exactly as
written in the source: `[ ] . * ^ $ ( ) + ? { | \` — it does NOT contain the
closing brace. -/
def isMeta (c : Char) : Bool :=
  c = '[' || c = ']' || c = '.' || c = '*' || c = '^' || c = '$' ||
  c = '(' || c = ')' || c = '+' || c = '?' || c = '{' || c = '|' || c = '\\'

/-- The metacharacter set claimed by the specification, which additionally
contains the closing brace. -/
def isMetaSpec (c : Char) : Bool :=
  isMeta c || c = '}'

/-- `s.replace(/[[\].*^$()+?{|\\]/g, '\\$&')`: a backslash is inserted in
front of every character of the class. -/
def escapeRegexChars : List Char → List Char
  | [] => []
  | c :: rest =>
    if isMeta c then '\\' :: c :: escapeRegexChars rest
    else c :: escapeRegexChars rest

/-- Line 177: the exact-match episode filter is the whole title with the
metacharacters escaped. -/
def buildExactFilter (title : String) : String :=
  String.mk (escapeRegexChars title.data)

/-- JS `Array.prototype.join('.*')` at the character level. -/
def joinGap : List (List Char) → List Char
  | [] => []
  | [w] => w
  | w :: ws => w ++ ('.' :: '*' :: joinGap ws)

/-- Line 202: `` `.*${words.join('.*')}.*` ``. -/
def mkPatternChars (ws : List (List Char)) : List Char :=
  '.' :: '*' :: (joinGap ws ++ ['.', '*'])

/-- Lines 196-204: the fuzzy filter.  The title is split on separator runs,
fragments of length ≤ 2 are dropped, the remaining fragments are escaped and
joined with `.*` gaps; when no fragment survives no filter is produced. -/
def buildFuzzyFilter (title : String) : Option String :=
  let words := (survivors title).map escapeRegexChars
  if words.length > 0 then some (String.mk (mkPatternChars words))
  else none

/-! ### A semantics for the produced patterns

The filters built above use only two regex constructs: literal characters
(possibly backslash-escaped) and the gap `.*`.  We parse a produced pattern
into that token language and give it the standard matching semantics, so that
"the pattern matches exactly the title" and "the pattern matches any string
containing the fragments in order" are provable statements. -/

/-- A token of the pattern language: a literal character or the `.*` gap. -/
inductive Tok where
  | gap : Tok
  | lit : Char → Tok
deriving DecidableEq, Repr

/-- Parse a pattern string: `\c` is the literal `c`, `.*` is a gap, any other
character stands for itself. -/
def parseToks : List Char → List Tok
  | [] => []
  | [c] => [Tok.lit c]
  | c1 :: c2 :: rest =>
    if c1 = '\\' then Tok.lit c2 :: parseToks rest
    else if c1 = '.' ∧ c2 = '*' then Tok.gap :: parseToks rest
    else Tok.lit c1 :: parseToks (c2 :: rest)

/-- Matching semantics: a literal consumes exactly its character, a gap
consumes an arbitrary prefix. -/
def tokMatch : List Tok → List Char → Prop
  | [], s => s = []
  | Tok.lit c :: ts, s => ∃ s2, s = c :: s2 ∧ tokMatch ts s2
  | Tok.gap :: ts, s => ∃ pre suf, s = pre ++ suf ∧ tokMatch ts suf

/-- `s` contains the given fragments, in order, in any surrounding context. -/
def containsInOrder : List (List Char) → List Char → Prop
  | [], _ => True
  | f :: fs, s => ∃ pre suf, s = pre ++ (f ++ suf) ∧ containsInOrder fs suf

/-- The literal tokens of a fragment. -/
def litToks (f : List Char) : List Tok :=
  f.map Tok.lit

/-- The token form of the fuzzy pattern: a gap, then the fragments separated
by gaps, then a final gap. -/
def patToks : List (List Char) → List Tok
  | [] => [Tok.gap]
  | f :: fs => Tok.gap :: (litToks f ++ patToks fs)

/-- Scans a pattern: `true` iff every character satisfying `meta` occurs
escaped, i.e. immediately after a backslash. -/
def noUnescaped (meta : Char → Bool) : List Char → Bool
  | [] => true
  | [c] => !meta c
  | c1 :: c2 :: rest =>
    if c1 = '\\' then noUnescaped meta rest
    else !meta c1 && noUnescaped meta (c2 :: rest)

/-! ### Feed index search (`searchItunesRss`, lines 50-86) -/

/-- One record of the index response; in JS each of the three fields may be
absent (`none`) or any string, and the empty string is falsy. -/
structure ItunesEntry where
  feedUrl : Option String
  collectionName : Option String
  trackName : Option String
deriving DecidableEq, Repr

/-- The value returned on a hit: lines 73-76. -/
structure ItunesCand where
  feedUrl : String
  collectionName : String
deriving DecidableEq, Repr

/-- JS truthiness of an optional string: absent and `""` are falsy. -/
def optTruthy : Option String → Bool
  | some s => !(s == "")
  | none => false

/-- JS `a || b` for an optional string with a fallback. -/
def jsOr (o : Option String) (d : String) : String :=
  match o with
  | some s => if s == "" then d else s
  | none => d

/-- The candidate built at lines 73-76:
`collectionName: result.collectionName || result.trackName || 'Unknown'`. -/
def mkCand (e : ItunesEntry) : ItunesCand :=
  { feedUrl := (e.feedUrl).getD ""
    collectionName := jsOr e.collectionName (jsOr e.trackName "Unknown") }

/-- The loop of lines 69-79: return on the first truthy `feedUrl` not in
`seen`; otherwise add the `feedUrl` to `seen` and continue. -/
def searchLoop : List ItunesEntry → List (Option String) → Option ItunesCand
  | [], _ => none
  | e :: rest, seen =>
    if optTruthy e.feedUrl && !(seen.contains e.feedUrl) then some (mkCand e)
    else searchLoop rest (e.feedUrl :: seen)

/-- The outcome of the index HTTP request, made explicit: a non-success
status (lines 56-59), a thrown network error (lines 82-85), or a parsed
body whose `results` field is the given list (`data.results || []`). -/
inductive Response where
  | transportError : Nat → Response
  | netFailure : String → Response
  | ok : List ItunesEntry → Response
deriving DecidableEq, Repr

/-- `searchItunesRss` (lines 50-86) as a function of the response: `null`
on transport error or thrown error, `null` on an empty result list, else
the loop starting from an empty `seen` set. -/
def searchItunesRss : Response → Option ItunesCand
  | Response.transportError _ => none
  | Response.netFailure _ => none
  | Response.ok results =>
    if results.isEmpty then none
    else searchLoop results []

/-- The candidate set produced by the search, as a list (at most one). -/
def candList (results : List ItunesEntry) : List ItunesCand :=
  (searchItunesRss (Response.ok results)).toList

/-! ### Download orchestrator (`downloadFromRss`, lines 95-149) -/

/-- One file of the output directory after the tool exits: its name and its
modification time. -/
structure FileEntry where
  name : String
  mtime : Int
deriving DecidableEq, Repr

/-- List-level suffix test, modelling JS `String.prototype.endsWith`. -/
def strEndsWith (s suffix : String) : Bool :=
  suffix.data.isSuffixOf s.data

/-- The extension allow-list of lines 123-125. -/
def isAudio (f : String) : Bool :=
  strEndsWith f ".mp3" || strEndsWith f ".m4a" || strEndsWith f ".wav"

/-- The outcome of the `podcast-dl` subprocess: a normal exit with its
streams, or a thrown error (non-zero exit, timeout, buffer overrun). -/
inductive ExecOutcome where
  | ok : String → String → ExecOutcome
  | failed : String → ExecOutcome
deriving DecidableEq, Repr

/-- The value of one download attempt (the JS object
`{success, filePath?, fileName?, error?}`). -/
inductive DLResult where
  | ok : String → String → DLResult
  | err : String → DLResult
deriving DecidableEq, Repr

/-- The `success` flag of a download outcome. -/
def DLResult.isSuccess : DLResult → Bool
  | DLResult.ok _ _ => true
  | DLResult.err _ => false

/-- `downloadFromRss` (lines 95-149) over an explicit subprocess outcome and
an explicit post-exit directory listing: a thrown error is caught into a
failure outcome; otherwise the listing is filtered by the audio allow-list,
an empty filtered list is the distinct no-audio failure, and among several
audio files the most recently modified one (the first such, matching the
stable descending sort of line 138) is returned. -/
def downloadFromRss (exec : ExecOutcome) (outputDir : String)
    (dirFiles : List FileEntry) : DLResult :=
  match exec with
  | ExecOutcome.failed msg => DLResult.err msg
  | ExecOutcome.ok _ _ =>
    match dirFiles.filter (fun fe => isAudio fe.name) with
    | [] => DLResult.err "No audio files downloaded"
    | f :: fs =>
      let best := fs.foldl (fun a b => if b.mtime > a.mtime then b else a) f
      DLResult.ok (outputDir ++ "/" ++ best.name) best.name

/-! ### Pipeline (`downloadSpotifyEpisode`, lines 159-219) -/

/-- The content-type classification of line 33 (`show` is a Lean keyword, so
the constructor is named `showKind`). -/
inductive SType where
  | episode : SType
  | showKind : SType
deriving DecidableEq, Repr

/-- What `getSpotifyInfo` resolves: `title` is `data.title || null`. -/
structure SpotifyInfo where
  title : Option String
  type : SType
deriving DecidableEq, Repr

/-- The pipeline's terminal value: the failure object `{success:false,
error}` or the success object of lines 211-218. -/
inductive PipeResult where
  | failure : String → PipeResult
  | success : String → String → String → String → String → PipeResult
deriving DecidableEq, Repr

/-- Lines 207-218: a failed download is returned as-is; a successful one is
packaged with the resolved title and the chosen feed's name and URL. -/
def finalizeResult (r : DLResult) (title : String) (cand : ItunesCand) :
    PipeResult :=
  match r with
  | DLResult.err e => PipeResult.failure e
  | DLResult.ok fp fn => PipeResult.success fp fn title cand.collectionName cand.feedUrl

/-- `downloadSpotifyEpisode` (lines 159-219) over explicit collaborator
outcomes: the resolved metadata, the index response, and the outcome of the
n-th download attempt.  Returns the pipeline result together with the list
of episode filters passed to the download attempts actually made, in order.
Lines 163-166: missing info or a falsy title is terminal.  Lines 171-178:
the exact filter is built only for episodes.  Lines 180-184: no candidate or
a falsy feedUrl is terminal.  Lines 190-205: one attempt with the exact
filter (or none for shows); on failure, for episodes only, one further
attempt with the fuzzy filter when it is buildable. -/
def downloadSpotifyEpisode (infoResp : Option SpotifyInfo) (resp : Response)
    (outcomes : Nat → DLResult) : PipeResult × List (Option String) :=
  match infoResp with
  | none => (PipeResult.failure "Could not fetch podcast info from Spotify", [])
  | some info =>
    match info.title with
    | none => (PipeResult.failure "Could not fetch podcast info from Spotify", [])
    | some title =>
      if title = "" then
        (PipeResult.failure "Could not fetch podcast info from Spotify", [])
      else
        let episodeFilter : Option String :=
          match info.type with
          | SType.episode => some (buildExactFilter title)
          | SType.showKind => none
        match searchItunesRss resp with
        | none => (PipeResult.failure "Could not find RSS feed in iTunes", [])
        | some cand =>
          if cand.feedUrl = "" then
            (PipeResult.failure "Could not find RSS feed in iTunes", [])
          else
            match outcomes 0, info.type with
            | DLResult.err e1, SType.episode =>
              match buildFuzzyFilter title with
              | some pf =>
                (finalizeResult (outcomes 1) title cand,
                 [episodeFilter, some pf])
              | none =>
                (finalizeResult (DLResult.err e1) title cand, [episodeFilter])
            | r1, _ => (finalizeResult r1 title cand, [episodeFilter])

/-! ### Lemmas about the pattern semantics -/

theorem tokMatch_litToks_append (f : List Char) (ts : List Tok) (s : List Char) :
    tokMatch (litToks f ++ ts) s ↔ ∃ s2, s = f ++ s2 ∧ tokMatch ts s2 := by
  induction f generalizing s with
  | nil => simp [litToks]
  | cons c f ih =>
    simp only [litToks, List.map_cons, List.cons_append, tokMatch]
    constructor
    · rintro ⟨s2, rfl, h⟩
      rcases (ih s2).mp h with ⟨s3, rfl, h3⟩
      exact ⟨s3, rfl, h3⟩
    · rintro ⟨s2, rfl, h⟩
      exact ⟨f ++ s2, rfl, (ih (f ++ s2)).mpr ⟨s2, rfl, h⟩⟩

theorem tokMatch_gap_nil (s : List Char) : tokMatch [Tok.gap] s := by
  exact ⟨s, [], by simp, rfl⟩

theorem tokMatch_patToks (frags : List (List Char)) (s : List Char) :
    tokMatch (patToks frags) s ↔ containsInOrder frags s := by
  induction frags generalizing s with
  | nil =>
    simp only [patToks, containsInOrder, iff_true]
    exact tokMatch_gap_nil s
  | cons f fs ih =>
    simp only [patToks, containsInOrder, tokMatch]
    constructor
    · rintro ⟨pre, suf, rfl, h⟩
      rcases (tokMatch_litToks_append f (patToks fs) suf).mp h with ⟨s3, rfl, h3⟩
      exact ⟨pre, s3, rfl, (ih s3).mp h3⟩
    · rintro ⟨pre, suf, rfl, h⟩
      exact ⟨pre, f ++ suf, rfl,
        (tokMatch_litToks_append f (patToks fs) (f ++ suf)).mpr
          ⟨suf, rfl, (ih suf).mpr h⟩⟩

theorem parseToks_nonmeta_cons (c : Char) (l : List Char)
    (h : isMeta c = false) : parseToks (c :: l) = Tok.lit c :: parseToks l := by
  have hb : c ≠ '\\' := by
    intro he
    subst he
    simp [isMeta] at h
  have hd : c ≠ '.' := by
    intro he
    subst he
    simp [isMeta] at h
  cases l with
  | nil => rfl
  | cons c2 rest => simp [parseToks, hb, hd]

theorem parseToks_escape_append (f : List Char) (rest : List Char) :
    parseToks (escapeRegexChars f ++ rest) = litToks f ++ parseToks rest := by
  induction f with
  | nil => simp [escapeRegexChars, litToks]
  | cons c f ih =>
    by_cases hm : isMeta c
    · have : escapeRegexChars (c :: f) = '\\' :: c :: escapeRegexChars f := by
        simp [escapeRegexChars, hm]
      rw [this]
      simp only [List.cons_append]
      rw [show parseToks ('\\' :: c :: (escapeRegexChars f ++ rest)) =
            Tok.lit c :: parseToks (escapeRegexChars f ++ rest) from by
          simp [parseToks]]
      simp [litToks, ih]
    · have hmf : isMeta c = false := by simpa using hm
      have : escapeRegexChars (c :: f) = c :: escapeRegexChars f := by
        simp [escapeRegexChars, hmf]
      rw [this]
      simp only [List.cons_append]
      rw [parseToks_nonmeta_cons c _ hmf]
      simp [litToks, ih]

theorem parseToks_gap_cons (l : List Char) :
    parseToks ('.' :: '*' :: l) = Tok.gap :: parseToks l := by
  simp [parseToks]

theorem parseToks_mkPattern (f : List Char) (fs : List (List Char)) :
    parseToks (mkPatternChars ((f :: fs).map escapeRegexChars)) = patToks (f :: fs) := by
  induction fs generalizing f with
  | nil =>
    simp only [List.map_cons, List.map_nil, mkPatternChars, joinGap]
    rw [parseToks_gap_cons, parseToks_escape_append]
    simp [patToks, parseToks, litToks]
  | cons g gs ih =>
    have h1 : mkPatternChars ((f :: g :: gs).map escapeRegexChars)
        = '.' :: '*' ::
          (escapeRegexChars f ++ mkPatternChars ((g :: gs).map escapeRegexChars)) := by
      simp [mkPatternChars, joinGap, List.append_assoc]
    rw [h1, parseToks_gap_cons, parseToks_escape_append, ih g]
    simp [patToks]

theorem searchLoop_eq_find (l : List ItunesEntry) (seen : List (Option String))
    (h : ∀ x ∈ seen, optTruthy x = false) :
    searchLoop l seen = (l.find? (fun e => optTruthy e.feedUrl)).map mkCand := by
  induction l generalizing seen with
  | nil => simp [searchLoop]
  | cons e rest ih =>
    cases ht : optTruthy e.feedUrl with
    | true =>
      have hmem : e.feedUrl ∉ seen := by
        intro hx
        rw [h e.feedUrl hx] at ht
        cases ht
      have hc : seen.contains e.feedUrl = false := by
        simp [List.contains, List.elem_eq_mem, hmem]
      simp [searchLoop, List.find?_cons, ht, hc]
      intro hx
      exact absurd hx hmem
    | false =>
      rw [show searchLoop (e :: rest) seen = searchLoop rest (e.feedUrl :: seen) from by
        simp [searchLoop, ht]]
      rw [ih (e.feedUrl :: seen) (by
        intro x hx
        rcases List.mem_cons.mp hx with hx1 | hx1
        · rw [hx1]; exact ht
        · exact h x hx1)]
      simp [List.find?_cons, ht]

theorem searchItunesRss_ok_eq_find (results : List ItunesEntry) :
    searchItunesRss (Response.ok results)
      = (results.find? (fun e => optTruthy e.feedUrl)).map mkCand := by
  cases results with
  | nil => simp [searchItunesRss]
  | cons e rest =>
    rw [show searchItunesRss (Response.ok (e :: rest)) = searchLoop (e :: rest) [] from by
      simp [searchItunesRss]]
    exact searchLoop_eq_find (e :: rest) [] (by intro x hx; cases hx)

theorem noUnescaped_escape (l : List Char) :
    noUnescaped isMeta (escapeRegexChars l) = true := by
  induction l with
  | nil => rfl
  | cons c rest ih =>
    by_cases hm : isMeta c
    · rw [show escapeRegexChars (c :: rest) = '\\' :: c :: escapeRegexChars rest from by
        simp [escapeRegexChars, hm]]
      simpa [noUnescaped] using ih
    · have hmf : isMeta c = false := by simpa using hm
      have hb : c ≠ '\\' := by
        intro he
        subst he
        simp [isMeta] at hmf
      rw [show escapeRegexChars (c :: rest) = c :: escapeRegexChars rest from by
        simp [escapeRegexChars, hmf]]
      cases hE : escapeRegexChars rest with
      | nil => simp [noUnescaped, hmf]
      | cons x xs =>
        rw [hE] at ih
        simp [noUnescaped, hmf, hb, ih]

theorem buildFuzzyFilter_none_iff (t : String) :
    buildFuzzyFilter t = none ↔ survivors t = [] := by
  cases hs : survivors t with
  | nil => simp [buildFuzzyFilter, hs]
  | cons f fs => simp [buildFuzzyFilter, hs]

theorem attempts_le_one_of_no_fuzzy (info : SpotifyInfo) (resp : Response)
    (outcomes : Nat → DLResult) (t : String) (ht : info.title = some t)
    (hbf : buildFuzzyFilter t = none) :
    ((downloadSpotifyEpisode (some info) resp outcomes).2).length ≤ 1 := by
  obtain ⟨titleOpt, ty⟩ := info
  have ht2 : titleOpt = some t := ht
  subst ht2
  by_cases hte : t = ""
  · simp [downloadSpotifyEpisode, hte]
  · cases hsr : searchItunesRss resp with
    | none => simp [downloadSpotifyEpisode, hte, hsr]
    | some cand =>
      by_cases hfu : cand.feedUrl = ""
      · simp [downloadSpotifyEpisode, hte, hsr, hfu]
      · cases ho : outcomes 0 with
        | ok fp fn => cases ty <;> simp [downloadSpotifyEpisode, hte, hsr, hfu, ho]
        | err e1 => cases ty <;> simp [downloadSpotifyEpisode, hte, hsr, hfu, ho, hbf]

/-! ### Claim theorems -/

/-- C1 (amended): the deduplication scan of `searchItunesRss` returns at most
one candidate — the first result bearing a truthy `feedUrl`, with its display
name — so the candidate set trivially contains no two entries with equal
`feedUrl` and preserves first-seen order; every later result, bearing the
same or a different `feedUrl`, is dropped. -/
theorem search_dedup_single_candidate (results : List ItunesEntry) :
    (candList results).length ≤ 1
    ∧ List.Pairwise (fun a b : ItunesCand => a.feedUrl ≠ b.feedUrl) (candList results)
    ∧ candList results
        = ((results.find? (fun e => optTruthy e.feedUrl)).map mkCand).toList := by
  have h : candList results
      = ((results.find? (fun e => optTruthy e.feedUrl)).map mkCand).toList := by
    rw [candList, searchItunesRss_ok_eq_find]
  refine ⟨?_, ?_, h⟩
  · rw [h]
    cases results.find? (fun e => optTruthy e.feedUrl) <;> simp
  · rw [h]
    cases results.find? (fun e => optTruthy e.feedUrl) <;> simp

/-- C1 counterexample: for a response carrying two distinct truthy feed URLs
the first result bearing the second URL is NOT kept — the scan returns only
the very first candidate, so the claimed one-entry-per-feedUrl candidate set
does not exist. -/
theorem search_dedup_drops_second_feed_cex :
    searchItunesRss (Response.ok
        [{ feedUrl := some "https://a.example/feed", collectionName := some "Alpha",
           trackName := none },
         { feedUrl := some "https://b.example/feed", collectionName := some "Beta",
           trackName := none }])
      = some { feedUrl := "https://a.example/feed", collectionName := "Alpha" }
    ∧ (searchItunesRss (Response.ok
        [{ feedUrl := some "https://a.example/feed", collectionName := some "Alpha",
           trackName := none },
         { feedUrl := some "https://b.example/feed", collectionName := some "Beta",
           trackName := none }])).toList.all
        (fun c => c.feedUrl != "https://b.example/feed") = true := by
  constructor
  · decide
  · decide

/-- C2 (amended): `buildExactFilter` escapes every character of the set
`[ ] . * ^ $ ( ) + ? { | \` — the set actually written in the source, which
does not contain the closing brace — leaving none of them unescaped, and the
produced pattern, read literally, matches exactly the original title. -/
theorem exact_filter_escapes_and_matches (t : String) :
    buildExactFilter t = String.mk (escapeRegexChars t.data)
    ∧ noUnescaped isMeta (buildExactFilter t).data = true
    ∧ ∀ s, tokMatch (parseToks (buildExactFilter t).data) s ↔ s = t.data := by
  refine ⟨rfl, noUnescaped_escape t.data, ?_⟩
  intro s
  have hp : parseToks (buildExactFilter t).data = litToks t.data := by
    have h1 := parseToks_escape_append t.data []
    simpa [buildExactFilter, parseToks] using h1
  rw [hp]
  constructor
  · intro hm
    rcases (tokMatch_litToks_append t.data [] s).mp (by simpa using hm) with ⟨s2, rfl, h2⟩
    have h3 : s2 = [] := h2
    simp [h3]
  · rintro rfl
    have h4 := (tokMatch_litToks_append t.data [] t.data).mpr ⟨[], by simp, rfl⟩
    simpa using h4

/-- C2 counterexample: the closing brace belongs to the claimed metacharacter
set but is left unescaped by the built exact filter. -/
theorem exact_filter_brace_unescaped_cex :
    buildExactFilter "a\x7db" = "a\x7db"
    ∧ noUnescaped isMetaSpec (buildExactFilter "a\x7db").data = false := by
  constructor
  · decide
  · decide

/-- C3 (amended): the split separators do not include the period, so the
title "The A.I. Revolution: Part One" fragments into "The", "A.I.",
"Revolution", "Part", "One"; every fragment has length > 2, hence none is
excluded, and the surviving fragments appear in the built pattern in their
original order. -/
theorem fuzzy_fragments_AI_title :
    splitFrags "The A.I. Revolution: Part One"
      = ["The".data, "A.I.".data, "Revolution".data, "Part".data, "One".data]
    ∧ survivors "The A.I. Revolution: Part One"
        = splitFrags "The A.I. Revolution: Part One"
    ∧ buildFuzzyFilter "The A.I. Revolution: Part One"
        = some ".*The.*A\\.I\\..*Revolution.*Part.*One.*" := by
  refine ⟨by decide, by decide, by decide⟩

/-- C3 counterexample: the fragmentation of "The A.I. Revolution: Part One"
never produces the fragments "A" and "I" — the period is not a separator. -/
theorem fuzzy_fragments_no_AI_cex :
    "A".data ∉ splitFrags "The A.I. Revolution: Part One"
    ∧ "I".data ∉ splitFrags "The A.I. Revolution: Part One" := by
  constructor
  · decide
  · decide

/-- C4: the fuzzy filter splits the title on separator runs, drops fragments
of length ≤ 2, escapes each surviving fragment and joins them with `.*` gaps
wrapped in leading and trailing `.*`; the pattern matches exactly the strings
containing all surviving fragments in order, and no filter is produced — and
the pipeline makes no second attempt — when no fragment survives. -/
theorem fuzzy_filter_spec (t : String) :
    (buildFuzzyFilter t = none ↔ survivors t = [])
    ∧ (∀ p, buildFuzzyFilter t = some p →
        p = String.mk (mkPatternChars ((survivors t).map escapeRegexChars))
        ∧ ∀ s, tokMatch (parseToks p.data) s ↔ containsInOrder (survivors t) s)
    ∧ ∀ (info : SpotifyInfo) (resp : Response) (outcomes : Nat → DLResult),
        info.title = some t → survivors t = [] →
        ((downloadSpotifyEpisode (some info) resp outcomes).2).length ≤ 1 := by
  refine ⟨buildFuzzyFilter_none_iff t, ?_, ?_⟩
  · intro p hp
    cases hs : survivors t with
    | nil =>
      have hn := (buildFuzzyFilter_none_iff t).mpr hs
      rw [hn] at hp
      cases hp
    | cons f fs =>
      have hv : buildFuzzyFilter t
          = some (String.mk (mkPatternChars ((f :: fs).map escapeRegexChars))) := by
        simp [buildFuzzyFilter, hs]
      rw [hv] at hp
      have hpeq : p = String.mk (mkPatternChars ((f :: fs).map escapeRegexChars)) :=
        (Option.some_inj.mp hp).symm
      subst hpeq
      refine ⟨rfl, ?_⟩
      intro s
      have hparse : parseToks
            (String.mk (mkPatternChars ((f :: fs).map escapeRegexChars))).data
          = patToks (f :: fs) := parseToks_mkPattern f fs
      rw [hparse]
      exact tokMatch_patToks (f :: fs) s
  · intro info resp outcomes hti hsur
    exact attempts_le_one_of_no_fuzzy info resp outcomes t hti
      ((buildFuzzyFilter_none_iff t).mpr hsur)

theorem fuzzy_filter_spec_witness :
    (buildFuzzyFilter "Hi yo" = none ↔ survivors "Hi yo" = [])
    ∧ ((downloadSpotifyEpisode (some { title := some "Hi yo", type := SType.episode })
        (Response.ok []) (fun _ => DLResult.err "e")).2).length ≤ 1 :=
  ⟨(fuzzy_filter_spec "Hi yo").1,
   (fuzzy_filter_spec "Hi yo").2.2 { title := some "Hi yo", type := SType.episode }
     (Response.ok []) (fun _ => DLResult.err "e") rfl (by decide)⟩

/-- C5: on a Show-kind reference the pipeline makes at most one download
attempt, that attempt carries no episode filter, and no fuzzy retry ever
happens, whatever the first attempt's outcome. -/
theorem show_kind_single_attempt (info : SpotifyInfo) (resp : Response)
    (outcomes : Nat → DLResult) (h : info.type = SType.showKind) :
    ((downloadSpotifyEpisode (some info) resp outcomes).2).length ≤ 1
    ∧ ∀ f ∈ (downloadSpotifyEpisode (some info) resp outcomes).2, f = none := by
  obtain ⟨titleOpt, ty⟩ := info
  have h2 : ty = SType.showKind := h
  subst h2
  cases titleOpt with
  | none => simp [downloadSpotifyEpisode]
  | some t =>
    by_cases hte : t = ""
    · simp [downloadSpotifyEpisode, hte]
    · cases hsr : searchItunesRss resp with
      | none => simp [downloadSpotifyEpisode, hte, hsr]
      | some cand =>
        by_cases hfu : cand.feedUrl = ""
        · simp [downloadSpotifyEpisode, hte, hsr, hfu]
        · cases ho : outcomes 0 with
          | ok fp fn => simp [downloadSpotifyEpisode, hte, hsr, hfu, ho]
          | err e1 => simp [downloadSpotifyEpisode, hte, hsr, hfu, ho]

theorem show_kind_single_attempt_witness :
    ((downloadSpotifyEpisode
        (some { title := some "My Show", type := SType.showKind })
        (Response.ok [{ feedUrl := some "https://f.example/rss",
                        collectionName := some "Pod", trackName := none }])
        (fun _ => DLResult.err "e")).2).length ≤ 1 :=
  (show_kind_single_attempt { title := some "My Show", type := SType.showKind }
    (Response.ok [{ feedUrl := some "https://f.example/rss",
                    collectionName := some "Pod", trackName := none }])
    (fun _ => DLResult.err "e") rfl).1

/-- C6: on an Episode-kind reference whose exact-filter attempt fails and
whose fuzzy filter is buildable, the pipeline makes exactly one further
attempt, with the fuzzy filter, and terminates with that attempt's outcome. -/
theorem episode_fuzzy_retry (info : SpotifyInfo) (resp : Response)
    (outcomes : Nat → DLResult) (t : String) (cand : ItunesCand) (p : String)
    (ht : info.title = some t) (hne : t ≠ "") (hty : info.type = SType.episode)
    (hs : searchItunesRss resp = some cand) (hf : cand.feedUrl ≠ "")
    (h0 : (outcomes 0).isSuccess = false)
    (hp : buildFuzzyFilter t = some p) :
    downloadSpotifyEpisode (some info) resp outcomes
      = (finalizeResult (outcomes 1) t cand,
         [some (buildExactFilter t), some p]) := by
  obtain ⟨titleOpt, ty⟩ := info
  have ht2 : titleOpt = some t := ht
  have hty2 : ty = SType.episode := hty
  subst ht2
  subst hty2
  cases ho : outcomes 0 with
  | ok fp fn =>
    rw [ho] at h0
    simp [DLResult.isSuccess] at h0
  | err e1 => simp [downloadSpotifyEpisode, hne, hs, hf, ho, hp]

theorem episode_fuzzy_retry_witness :
    downloadSpotifyEpisode
        (some { title := some "Deep Dive Episode", type := SType.episode })
        (Response.ok [{ feedUrl := some "https://f.example/rss",
                        collectionName := some "Pod", trackName := none }])
        (fun n => if n = 0 then DLResult.err "nope" else DLResult.ok "out/e.mp3" "e.mp3")
      = (finalizeResult
           ((fun n => if n = 0 then DLResult.err "nope"
                      else DLResult.ok "out/e.mp3" "e.mp3") 1)
           "Deep Dive Episode"
           { feedUrl := "https://f.example/rss", collectionName := "Pod" },
         [some (buildExactFilter "Deep Dive Episode"),
          some ".*Deep.*Dive.*Episode.*"]) :=
  episode_fuzzy_retry
    { title := some "Deep Dive Episode", type := SType.episode }
    (Response.ok [{ feedUrl := some "https://f.example/rss",
                    collectionName := some "Pod", trackName := none }])
    (fun n => if n = 0 then DLResult.err "nope" else DLResult.ok "out/e.mp3" "e.mp3")
    "Deep Dive Episode"
    { feedUrl := "https://f.example/rss", collectionName := "Pod" }
    ".*Deep.*Dive.*Episode.*"
    rfl (by decide) rfl (by decide) (by decide) (by decide) (by decide)

/-- C7 (amended): when the feed-index search yields no candidate — zero
results, no result with a truthy feedUrl, or a transport/network failure —
the pipeline terminates with the failure message
"Could not find RSS feed in iTunes" and makes no download attempt. -/
theorem feed_not_found_terminal (info : SpotifyInfo) (resp : Response)
    (outcomes : Nat → DLResult) (t : String)
    (ht : info.title = some t) (hne : t ≠ "")
    (hs : searchItunesRss resp = none) :
    downloadSpotifyEpisode (some info) resp outcomes
      = (PipeResult.failure "Could not find RSS feed in iTunes", []) := by
  obtain ⟨titleOpt, ty⟩ := info
  have ht2 : titleOpt = some t := ht
  subst ht2
  simp [downloadSpotifyEpisode, hne, hs]

theorem feed_not_found_terminal_witness :
    downloadSpotifyEpisode
        (some { title := some "My Episode", type := SType.episode })
        (Response.transportError 500) (fun _ => DLResult.err "boom")
      = (PipeResult.failure "Could not find RSS feed in iTunes", []) :=
  feed_not_found_terminal
    { title := some "My Episode", type := SType.episode }
    (Response.transportError 500) (fun _ => DLResult.err "boom")
    "My Episode" rfl (by decide) rfl

/-- C7 counterexample: the terminal failure message is
"Could not find RSS feed in iTunes", not the claimed
"Could not find RSS feed". -/
theorem feed_not_found_message_cex :
    downloadSpotifyEpisode
        (some { title := some "My Episode", type := SType.episode })
        (Response.ok []) (fun _ => DLResult.err "boom")
      = (PipeResult.failure "Could not find RSS feed in iTunes", [])
    ∧ "Could not find RSS feed in iTunes" ≠ "Could not find RSS feed" := by
  constructor
  · decide
  · decide

/-- C8 (amended): with no truthy feedUrl among the results the search
returns `none`, but a transport error and a thrown network error return the
very same `none` — the empty outcome is not distinguishable from a transport
error in the returned value. -/
theorem search_empty_and_transport_both_none (results : List ItunesEntry)
    (st : Nat) (msg : String)
    (h : ∀ e ∈ results, optTruthy e.feedUrl = false) :
    searchItunesRss (Response.ok results) = none
    ∧ searchItunesRss (Response.transportError st) = none
    ∧ searchItunesRss (Response.netFailure msg) = none := by
  refine ⟨?_, rfl, rfl⟩
  rw [searchItunesRss_ok_eq_find]
  have hfind : results.find? (fun e => optTruthy e.feedUrl) = none :=
    List.find?_eq_none.mpr (fun e he => by simp [h e he])
  rw [hfind]
  rfl

theorem search_empty_and_transport_witness :
    searchItunesRss (Response.ok
        [{ feedUrl := none, collectionName := some "X", trackName := none }]) = none
    ∧ searchItunesRss (Response.transportError 404) = none
    ∧ searchItunesRss (Response.netFailure "timeout") = none :=
  search_empty_and_transport_both_none
    [{ feedUrl := none, collectionName := some "X", trackName := none }]
    404 "timeout" (by decide)

/-- C8 counterexample: a transport error and a well-formed empty response
produce the identical returned value `none`, so the two outcomes are not
distinguishable in the returned value. -/
theorem search_outcomes_indistinguishable_cex :
    searchItunesRss (Response.transportError 500) = none
    ∧ searchItunesRss (Response.ok []) = none
    ∧ searchItunesRss (Response.transportError 500)
        = searchItunesRss (Response.ok []) :=
  ⟨rfl, rfl, rfl⟩

/-- C9: a download attempt reports success only when the post-exit directory
listing holds at least one file with an allowed audio extension; a clean tool
exit over a directory with no audio file yields the distinct no-audio
failure. -/
theorem download_success_needs_audio (exec : ExecOutcome) (outputDir : String)
    (dirFiles : List FileEntry) :
    (∀ fp fn, downloadFromRss exec outputDir dirFiles = DLResult.ok fp fn →
       ∃ fe, fe ∈ dirFiles ∧ isAudio fe.name = true)
    ∧ (∀ out err2, exec = ExecOutcome.ok out err2 →
       (∀ fe ∈ dirFiles, isAudio fe.name = false) →
       downloadFromRss exec outputDir dirFiles
         = DLResult.err "No audio files downloaded") := by
  constructor
  · intro fp fn hok
    cases exec with
    | failed msg => simp [downloadFromRss] at hok
    | ok out err2 =>
      cases hfil : dirFiles.filter (fun fe => isAudio fe.name) with
      | nil => simp [downloadFromRss, hfil] at hok
      | cons f fs =>
        have hf : f ∈ dirFiles.filter (fun fe => isAudio fe.name) := by
          rw [hfil]
          exact List.mem_cons_self f fs
        have hmem := List.mem_filter.mp hf
        exact ⟨f, hmem.1, hmem.2⟩
  · intro out err2 hexec hall
    subst hexec
    have hfil : dirFiles.filter (fun fe => isAudio fe.name) = [] :=
      List.filter_eq_nil_iff.mpr (fun fe hfe => by simp [hall fe hfe])
    simp [downloadFromRss, hfil]

theorem download_success_needs_audio_witness :
    downloadFromRss (ExecOutcome.ok "done" "") "out"
        [{ name := "episode.txt", mtime := 7 }]
      = DLResult.err "No audio files downloaded" :=
  (download_success_needs_audio (ExecOutcome.ok "done" "") "out"
      [{ name := "episode.txt", mtime := 7 }]).2 "done" "" rfl (by decide)

/-- C10: the search returns at most one candidate — the first result in
response order with a truthy feedUrl, its display name being the result's
collectionName, falling back to trackName and then to "Unknown" — and the
empty outcome when no result has a truthy feedUrl. -/
theorem search_returns_first_truthy (results : List ItunesEntry) :
    searchItunesRss (Response.ok results)
      = (results.find? (fun e => optTruthy e.feedUrl)).map (fun e =>
          { feedUrl := e.feedUrl.getD ""
            collectionName := jsOr e.collectionName (jsOr e.trackName "Unknown") }) := by
  rw [searchItunesRss_ok_eq_find]
  rfl
